import Mathlib

/-!
A formal model of `src/ClientEngine.js` (the lance client engine).

A shallow embedding of the client-side step-synchronization engine.
Mutable fields of the JS `ClientEngine` (and the fields of its
`gameEngine` collaborator that the engine reads or writes) become fields
of a `ClientEngine` structure; each JS method becomes a state-passing
function.  Three ghost fields (`appliedInputs`, `sentMessages`,
`issuedMessages`) record the observable effects — calls to
`gameEngine.processInput`, `socket.emit`, and message creation in
`sendInput` — that the claims talk about; no source logic reads them.

Numbers that the source treats as step counters, message indices and
player ids are modelled as `Nat`.  JS truthiness tests on such numbers
(`if (x)`) are modelled as `x ≠ 0`, and an absent field as `Option.none`.
-/

namespace Lance

/-- The `STEP_DRIFT_THRESHOLD` constant from `ClientEngine.js`. -/
def STEP_DRIFT_THRESHOLD : Nat := 10

/-- An input message as built by `sendInput`:
`{command: 'move', data: {messageIndex, step, input, options}}`,
flattened.  The input and its options are opaque payloads, modelled as a
`String` and an optional `String`. -/
structure InputMessage where
  command : String
  messageIndex : Nat
  step : Nat
  input : String
  options : Option String
  deriving Repr, DecidableEq

/-- A sync event carries an optional `stepCount` field; the other fields
of a `SyncEvent` are never read by `ClientEngine`, so an event is
modelled by that one field.  An inbound `worldUpdate` payload is handed
to `networkTransmitter.deserializePayload(syncData).events`; the
deserializer is an external collaborator (not under `src/`), so a payload
is identified with the event list it decodes to. -/
abbrev SyncEvents := List (Option Nat)

/-- The mutable state of the client engine, together with the fields of
the `gameEngine` collaborator that `ClientEngine.js` reads or writes
(`world.stepCount`, `serverStep`, `passive`).

* `serverStep` — `gameEngine.serverStep`; `none` models the field never
  having been set (no authoritative step received).
* `delayedInputs` — `none` when `delayInputCount` was not configured
  (the JS field stays `undefined`), otherwise the batch list.
* `skipOneStep` / `doubleStep` start out `undefined` (falsy) in JS,
  modelled as `false`.
* `appliedInputs`, `sentMessages`, `issuedMessages` are ghost logs. -/
structure ClientEngine where
  stepCount : Nat
  serverStep : Option Nat
  skipOneStep : Bool
  doubleStep : Bool
  inboundMessages : List SyncEvents
  outboundMessages : List InputMessage
  delayedInputs : Option (List (List InputMessage))
  messageIndex : Nat
  passive : Bool
  appliedInputs : List InputMessage
  sentMessages : List InputMessage
  issuedMessages : List InputMessage
  deriving Repr, DecidableEq

/-- Constructor fragment (lines 63–68): when `inputOptions.delayInputCount`
is truthy (a nonzero count `D`), build a buffer of `D` empty batches
(`for (let i = 0; i < inputOptions.delayInputCount; i++) delayedInputs[i] = []`);
otherwise the field stays `undefined`. -/
def mkDelayedInputs (delayInputCount : Nat) : Option (List (List InputMessage)) :=
  if delayInputCount ≠ 0 then some (List.replicate delayInputCount ([] : List InputMessage))
  else none

/-- The `playerJoined` handler (lines 70–73): the message index namespace is
seeded as `Number(this.playerId) * 10000`. -/
def initMessageIndex (playerId : Nat) : Nat := playerId * 10000

/-- A fresh engine after construction and the `playerJoined` handshake:
step count 0, no authoritative step yet, empty queues, delayed-input
buffer per `mkDelayedInputs`, message index seeded from the player id. -/
def mkClientEngine (delayInputCount : Nat) (playerId : Nat) : ClientEngine :=
  { stepCount := 0
    serverStep := none
    skipOneStep := false
    doubleStep := false
    inboundMessages := []
    outboundMessages := []
    delayedInputs := mkDelayedInputs delayInputCount
    messageIndex := initMessageIndex playerId
    passive := false
    appliedInputs := []
    sentMessages := []
    issuedMessages := [] }

/-- The `socket.on('worldUpdate', ...)` handler (lines 105–107): pushes the
arriving payload onto the end of `inboundMessages`. -/
def receiveWorldUpdate (e : ClientEngine) (worldData : SyncEvents) : ClientEngine :=
  { e with inboundMessages := e.inboundMessages ++ [worldData] }

/-- Function `doInputLocal` (lines 179–187): a no-op when the game engine is
passive; otherwise delivers the message to `gameEngine.processInput`
(recorded in the `appliedInputs` ghost log). -/
def doInputLocal (e : ClientEngine) (message : InputMessage) : ClientEngine :=
  if e.passive then e
  else { e with appliedInputs := e.appliedInputs ++ [message] }

/-- Statement `this.delayedInputs[this.delayedInputs.length - 1].push(message)`
(line 229): append a message to the last batch, leaving the other
batches in place.  The buffer is nonempty in every reachable configured
state (the constructor creates at least one batch and
`applyDelayedInputs` preserves the length); on the unreachable empty
buffer the JS code would throw. -/
def pushToLast (buf : List (List InputMessage)) (m : InputMessage) :
    List (List InputMessage) :=
  buf.dropLast ++ [buf.getLastD [] ++ [m]]

/-- The message literal built at the top of `sendInput` (lines 214–222):
`{command: 'move', data: {messageIndex, step, input, options}}`. -/
def newInputMessage (e : ClientEngine) (input : String) (inputOptions : Option String) :
    InputMessage :=
  { command := "move"
    messageIndex := e.messageIndex
    step := e.stepCount
    input := input
    options := inputOptions }

/-- Function `sendInput` (lines 213–236): build the message from the current
`messageIndex` and `world.stepCount`; if `delayedInputs` is configured,
queue it into the newest batch, otherwise apply it locally now; push it
onto `outboundMessages`; increment `messageIndex`.  The `issuedMessages`
ghost log records every message created, in issuance order. -/
def sendInput (e : ClientEngine) (input : String) (inputOptions : Option String) :
    ClientEngine :=
  let message := newInputMessage e input inputOptions
  let e1 :=
    match e.delayedInputs with
    | some buf => { e with delayedInputs := some (pushToLast buf message) }
    | none => doInputLocal e message
  { e1 with
    outboundMessages := e1.outboundMessages ++ [message]
    issuedMessages := e1.issuedMessages ++ [message]
    messageIndex := e1.messageIndex + 1 }

/-- Function `applyDelayedInputs` (lines 189–199): if no buffer is configured,
return; otherwise `shift()` the oldest batch, apply each of its inputs
via `doInputLocal` in order, and `push([])` a fresh empty batch at the
tail.  (`shift()` on an empty buffer yields `undefined`, whose guard
`delayed && delayed.length` fails — the fold over `[]` is the same
no-op.) -/
def applyDelayedInputs (e : ClientEngine) : ClientEngine :=
  match e.delayedInputs with
  | none => e
  | some buf =>
    let delayed := buf.headD []
    let e1 := delayed.foldl doInputLocal e
    { e1 with delayedInputs := some (buf.tail ++ [[]]) }

/-- Expression `el.stepCount ? Math.max(max, el.stepCount) : max` folded over the
events with initial accumulator 0 (lines 244–246).  The condition is JS
truthiness: an absent `stepCount` and a `stepCount` of `0` both take the
`max`-unchanged branch. -/
def maxStepCount (syncEvents : SyncEvents) : Nat :=
  syncEvents.foldl
    (fun max el =>
      match el with
      | some sc => if sc ≠ 0 then Nat.max max sc else max
      | none => max)
    0

/-- Function `handleInboundMessage` (lines 238–261): compute the maximum
`stepCount` over the payload's events, emit `client.syncReceived`
(a notification, not modelled), and overwrite `world.stepCount` exactly
when the maximum exceeds it. -/
def handleInboundMessage (e : ClientEngine) (syncData : SyncEvents) : ClientEngine :=
  let m := maxStepCount syncData
  if m > e.stepCount then { e with stepCount := m } else e

/-- Function `handleOutboundInput` (lines 263–268): emit every queued message to
the socket in index order (recorded in the `sentMessages` ghost log),
then clear the queue. -/
def handleOutboundInput (e : ClientEngine) : ClientEngine :=
  { e with
    sentMessages := e.sentMessages ++ e.outboundMessages
    outboundMessages := [] }

/-- Body of the inbound drain loop: one fuel unit per iteration of the
JS `while`; `pop()` removes and returns the **last** element
(`getLast?` plus `dropLast`).  Each iteration strictly shortens the
list, so any fuel of at least `pending.length` runs the loop to
completion. -/
def drainInboundLoop : Nat → ClientEngine → List SyncEvents →
    ClientEngine × List SyncEvents
  | 0, e, _ => (e, [])
  | fuel + 1, e, pending =>
    match pending.getLast? with
    | none => (e, [])
    | some last =>
      let e1 := handleInboundMessage e last
      let rest := drainInboundLoop fuel e1 pending.dropLast
      (rest.1, last :: rest.2)

/-- The inbound drain loop (lines 153–155):
`while (inboundMessages.length > 0) handleInboundMessage(inboundMessages.pop())`.
Takes the pending list, returns the resulting engine together with the
list of payloads in the order they were handed to
`handleInboundMessage`. -/
def drainInbound (e : ClientEngine) (pending : List SyncEvents) :
    ClientEngine × List SyncEvents :=
  drainInboundLoop pending.length e pending

/-- The step-drift check (lines 157–166), parameterised by the threshold
constant.  Entered only when `gameEngine.serverStep` is truthy (set and
nonzero); raises `skipOneStep` when the client is ahead by more than `T`
and `doubleStep` when it is behind by more than `T`. -/
def driftCheck (T : Nat) (e : ClientEngine) : ClientEngine :=
  match e.serverStep with
  | none => e
  | some s =>
    if s = 0 then e
    else if e.stepCount > s + T then { e with skipOneStep := true }
    else if s > e.stepCount + T then { e with doubleStep := true }
    else e

/-- Modelled from the spec: `gameEngine.step()` belongs to the
`GameEngine` collaborator, which is not under `src/`.  Per the spec it
"advances the simulation by exactly one logical step", i.e. increments
`world.stepCount` by one. -/
def gameEngineStep (e : ClientEngine) : ClientEngine :=
  { e with stepCount := e.stepCount + 1 }

/-- One call of `step()` (lines 141–177).  If `skipOneStep` is set, clear
it and return (only trace bookkeeping happens).  Otherwise: emit
`client.preStep` — the hook at which user code issues inputs via
`sendInput`, so the tick's issued inputs are a parameter applied here —
then drain the inbound queue, run the drift check with
`STEP_DRIFT_THRESHOLD`, flush outbound messages, apply delayed inputs,
and advance the game engine by one step. -/
def stepWithInputs (e : ClientEngine) (inputs : List String) : ClientEngine :=
  if e.skipOneStep then { e with skipOneStep := false }
  else
    let e1 := inputs.foldl (fun acc i => sendInput acc i none) e
    let e2 := { (drainInbound e1 e1.inboundMessages).1 with inboundMessages := [] }
    let e3 := driftCheck STEP_DRIFT_THRESHOLD e2
    let e4 := handleOutboundInput e3
    let e5 := applyDelayedInputs e4
    gameEngineStep e5

/-- Run a sequence of ticks; each element of the schedule is the list of
inputs issued at that tick's `client.preStep` hook. -/
def runTicks (e : ClientEngine) (schedule : List (List String)) : ClientEngine :=
  schedule.foldl stepWithInputs e

/-- The two asynchronous entry points that touch engine state: a tick of
the game loop, and a `worldUpdate` arrival. -/
inductive ClientAction where
  | tick (inputs : List String)
  | worldUpdate (events : SyncEvents)
  deriving Repr

/-- Apply one asynchronous action to the engine. -/
def applyAction (e : ClientEngine) : ClientAction → ClientEngine
  | .tick inputs => stepWithInputs e inputs
  | .worldUpdate events => receiveWorldUpdate e events

/-- Run an arbitrary interleaving of ticks and arrivals. -/
def runActions (e : ClientEngine) (acts : List ClientAction) : ClientEngine :=
  acts.foldl applyAction e

/-! ## Synchronization strategy selection -/

/-- The `Synchronizer` collaborator as seen by `configureSynchronization`:
three selector slots, each either left unset or assigned the
constant-true selector function.  A `true` field models the slot having
been assigned (strategy activated). -/
structure Synchronizer where
  extrapolateObjectSelector : Bool
  interpolateObjectSelector : Bool
  frameSyncSelector : Bool
  deriving Repr, DecidableEq

/-- The `syncOptions` configuration record: the sync-mode string plus the
`reflect` flag (absent, i.e. falsy, unless set). -/
structure SyncOptions where
  sync : String
  reflect : Bool
  deriving Repr, DecidableEq

/-- Function `configureSynchronization` (lines 81–101): rewrite `"reflect"` into
`"interpolate"` with the `reflect` flag set, then activate exactly one
selector on the fresh synchronizer according to the (rewritten) mode.
Returns the mutated options record and the synchronizer. -/
def configureSynchronization (syncOptions : SyncOptions) : SyncOptions × Synchronizer :=
  let opts :=
    if syncOptions.sync = "reflect" then
      { syncOptions with sync := "interpolate", reflect := true }
    else syncOptions
  let synchronizer : Synchronizer :=
    { extrapolateObjectSelector := false
      interpolateObjectSelector := false
      frameSyncSelector := false }
  let synchronizer :=
    if opts.sync = "extrapolate" then
      { synchronizer with extrapolateObjectSelector := true }
    else if opts.sync = "interpolate" then
      { synchronizer with interpolateObjectSelector := true }
    else if opts.sync = "frameSync" then
      { synchronizer with frameSyncSelector := true }
    else synchronizer
  (opts, synchronizer)

/-- Number of activated selectors on a synchronizer. -/
def activatedSelectorCount (s : Synchronizer) : Nat :=
  (cond s.extrapolateObjectSelector 1 0) +
  (cond s.interpolateObjectSelector 1 0) +
  (cond s.frameSyncSelector 1 0)

/-! ## Specification predicates and derived runs -/

/-- The outbound-dispatch bookkeeping relation, with `base` the seed of
the client's message-index namespace: the transmitted stream followed by
the still-queued messages is exactly the issuance log, the issuance
log carries consecutive message indices starting at `base`, and the
`messageIndex` counter sits one past the last issued index. -/
def OutboundInv (base : Nat) (e : ClientEngine) : Prop :=
  e.sentMessages ++ e.outboundMessages = e.issuedMessages ∧
  e.issuedMessages.map InputMessage.messageIndex =
    List.range' base e.issuedMessages.length ∧
  e.messageIndex = base + e.issuedMessages.length

/-- Issue `n` inputs in a row via `sendInput` (payload irrelevant to the
sequence-number claims). -/
def issueMany (e : ClientEngine) : Nat → ClientEngine
  | 0 => e
  | n + 1 => sendInput (issueMany e n) "input" none

/-- The sequence numbers carried by the messages a client with player id
`p` issues when it makes `n` inputs, in issuance order. -/
def messageIndices (p n : Nat) : List Nat :=
  ((issueMany (mkClientEngine 0 p) n).issuedMessages).map InputMessage.messageIndex

/-! ## Characterization lemmas for the individual operations -/

lemma doInputLocal_eq (e : ClientEngine) (m : InputMessage) :
    doInputLocal e m =
      { e with appliedInputs := e.appliedInputs ++ (if e.passive then [] else [m]) } := by
  unfold doInputLocal
  by_cases h : e.passive
  · rw [if_pos h, if_pos h, List.append_nil]
  · rw [if_neg h, if_neg h]

lemma sendInput_eq_some (e : ClientEngine) (i : String) (o : Option String)
    (buf : List (List InputMessage)) (h : e.delayedInputs = some buf) :
    sendInput e i o =
      { e with
        delayedInputs := some (pushToLast buf (newInputMessage e i o))
        outboundMessages := e.outboundMessages ++ [newInputMessage e i o]
        issuedMessages := e.issuedMessages ++ [newInputMessage e i o]
        messageIndex := e.messageIndex + 1 } := by
  unfold sendInput
  rw [h]

lemma sendInput_eq_none (e : ClientEngine) (i : String) (o : Option String)
    (h : e.delayedInputs = none) :
    sendInput e i o =
      { e with
        appliedInputs :=
          e.appliedInputs ++ (if e.passive then [] else [newInputMessage e i o])
        outboundMessages := e.outboundMessages ++ [newInputMessage e i o]
        issuedMessages := e.issuedMessages ++ [newInputMessage e i o]
        messageIndex := e.messageIndex + 1 } := by
  simp [sendInput, h, doInputLocal_eq]

lemma handleInboundMessage_eq (e : ClientEngine) (s : SyncEvents) :
    handleInboundMessage e s =
      if maxStepCount s > e.stepCount then { e with stepCount := maxStepCount s }
      else e := rfl

lemma handleOutboundInput_eq (e : ClientEngine) :
    handleOutboundInput e =
      { e with
        sentMessages := e.sentMessages ++ e.outboundMessages
        outboundMessages := [] } := rfl

lemma driftCheck_none (T : Nat) (e : ClientEngine) (h : e.serverStep = none) :
    driftCheck T e = e := by
  unfold driftCheck
  rw [h]

lemma driftCheck_some (T s : Nat) (e : ClientEngine) (h : e.serverStep = some s) :
    driftCheck T e =
      if s = 0 then e
      else if e.stepCount > s + T then { e with skipOneStep := true }
      else if s > e.stepCount + T then { e with doubleStep := true }
      else e := by
  unfold driftCheck
  rw [h]

lemma applyDelayedInputs_none (e : ClientEngine) (h : e.delayedInputs = none) :
    applyDelayedInputs e = e := by
  unfold applyDelayedInputs
  rw [h]

lemma applyDelayedInputs_some (e : ClientEngine) (buf : List (List InputMessage))
    (h : e.delayedInputs = some buf) :
    applyDelayedInputs e =
      { (buf.headD []).foldl doInputLocal e with
        delayedInputs := some (buf.tail ++ [[]]) } := by
  unfold applyDelayedInputs
  rw [h]

/-! ## Field bookkeeping: which operation touches which field -/

@[simp] lemma doInputLocal_stepCount (e : ClientEngine) (m : InputMessage) :
    (doInputLocal e m).stepCount = e.stepCount := by rw [doInputLocal_eq]

@[simp] lemma doInputLocal_serverStep (e : ClientEngine) (m : InputMessage) :
    (doInputLocal e m).serverStep = e.serverStep := by rw [doInputLocal_eq]

@[simp] lemma doInputLocal_skipOneStep (e : ClientEngine) (m : InputMessage) :
    (doInputLocal e m).skipOneStep = e.skipOneStep := by rw [doInputLocal_eq]

@[simp] lemma doInputLocal_doubleStep (e : ClientEngine) (m : InputMessage) :
    (doInputLocal e m).doubleStep = e.doubleStep := by rw [doInputLocal_eq]

@[simp] lemma doInputLocal_inboundMessages (e : ClientEngine) (m : InputMessage) :
    (doInputLocal e m).inboundMessages = e.inboundMessages := by rw [doInputLocal_eq]

@[simp] lemma doInputLocal_outboundMessages (e : ClientEngine) (m : InputMessage) :
    (doInputLocal e m).outboundMessages = e.outboundMessages := by rw [doInputLocal_eq]

@[simp] lemma doInputLocal_delayedInputs (e : ClientEngine) (m : InputMessage) :
    (doInputLocal e m).delayedInputs = e.delayedInputs := by rw [doInputLocal_eq]

@[simp] lemma doInputLocal_messageIndex (e : ClientEngine) (m : InputMessage) :
    (doInputLocal e m).messageIndex = e.messageIndex := by rw [doInputLocal_eq]

@[simp] lemma doInputLocal_passive (e : ClientEngine) (m : InputMessage) :
    (doInputLocal e m).passive = e.passive := by rw [doInputLocal_eq]

@[simp] lemma doInputLocal_sentMessages (e : ClientEngine) (m : InputMessage) :
    (doInputLocal e m).sentMessages = e.sentMessages := by rw [doInputLocal_eq]

@[simp] lemma doInputLocal_issuedMessages (e : ClientEngine) (m : InputMessage) :
    (doInputLocal e m).issuedMessages = e.issuedMessages := by rw [doInputLocal_eq]

@[simp] lemma doInputLocal_appliedInputs (e : ClientEngine) (m : InputMessage) :
    (doInputLocal e m).appliedInputs =
      e.appliedInputs ++ (if e.passive then [] else [m]) := by rw [doInputLocal_eq]

@[simp] lemma sendInput_stepCount (e : ClientEngine) (i : String) (o : Option String) :
    (sendInput e i o).stepCount = e.stepCount := by
  cases h : e.delayedInputs
  · rw [sendInput_eq_none e i o h]
  · rw [sendInput_eq_some e i o _ h]

@[simp] lemma sendInput_serverStep (e : ClientEngine) (i : String) (o : Option String) :
    (sendInput e i o).serverStep = e.serverStep := by
  cases h : e.delayedInputs
  · rw [sendInput_eq_none e i o h]
  · rw [sendInput_eq_some e i o _ h]

@[simp] lemma sendInput_skipOneStep (e : ClientEngine) (i : String) (o : Option String) :
    (sendInput e i o).skipOneStep = e.skipOneStep := by
  cases h : e.delayedInputs
  · rw [sendInput_eq_none e i o h]
  · rw [sendInput_eq_some e i o _ h]

@[simp] lemma sendInput_doubleStep (e : ClientEngine) (i : String) (o : Option String) :
    (sendInput e i o).doubleStep = e.doubleStep := by
  cases h : e.delayedInputs
  · rw [sendInput_eq_none e i o h]
  · rw [sendInput_eq_some e i o _ h]

@[simp] lemma sendInput_inboundMessages (e : ClientEngine) (i : String) (o : Option String) :
    (sendInput e i o).inboundMessages = e.inboundMessages := by
  cases h : e.delayedInputs
  · rw [sendInput_eq_none e i o h]
  · rw [sendInput_eq_some e i o _ h]

@[simp] lemma sendInput_sentMessages (e : ClientEngine) (i : String) (o : Option String) :
    (sendInput e i o).sentMessages = e.sentMessages := by
  cases h : e.delayedInputs
  · rw [sendInput_eq_none e i o h]
  · rw [sendInput_eq_some e i o _ h]

@[simp] lemma sendInput_passive (e : ClientEngine) (i : String) (o : Option String) :
    (sendInput e i o).passive = e.passive := by
  cases h : e.delayedInputs
  · rw [sendInput_eq_none e i o h]
  · rw [sendInput_eq_some e i o _ h]

@[simp] lemma sendInput_messageIndex (e : ClientEngine) (i : String) (o : Option String) :
    (sendInput e i o).messageIndex = e.messageIndex + 1 := by
  cases h : e.delayedInputs
  · rw [sendInput_eq_none e i o h]
  · rw [sendInput_eq_some e i o _ h]

@[simp] lemma sendInput_outboundMessages (e : ClientEngine) (i : String) (o : Option String) :
    (sendInput e i o).outboundMessages =
      e.outboundMessages ++ [newInputMessage e i o] := by
  cases h : e.delayedInputs
  · rw [sendInput_eq_none e i o h]
  · rw [sendInput_eq_some e i o _ h]

@[simp] lemma sendInput_issuedMessages (e : ClientEngine) (i : String) (o : Option String) :
    (sendInput e i o).issuedMessages =
      e.issuedMessages ++ [newInputMessage e i o] := by
  cases h : e.delayedInputs
  · rw [sendInput_eq_none e i o h]
  · rw [sendInput_eq_some e i o _ h]

lemma sendInput_appliedInputs_of_some (e : ClientEngine) (i : String) (o : Option String)
    (buf : List (List InputMessage)) (h : e.delayedInputs = some buf) :
    (sendInput e i o).appliedInputs = e.appliedInputs := by
  rw [sendInput_eq_some e i o _ h]

lemma sendInput_delayedInputs_of_some (e : ClientEngine) (i : String) (o : Option String)
    (buf : List (List InputMessage)) (h : e.delayedInputs = some buf) :
    (sendInput e i o).delayedInputs =
      some (pushToLast buf (newInputMessage e i o)) := by
  rw [sendInput_eq_some e i o _ h]

@[simp] lemma handleInboundMessage_stepCount (e : ClientEngine) (s : SyncEvents) :
    (handleInboundMessage e s).stepCount =
      if maxStepCount s > e.stepCount then maxStepCount s else e.stepCount := by
  rw [handleInboundMessage_eq]; split <;> rfl

lemma handleInboundMessage_stepCount_le (e : ClientEngine) (s : SyncEvents) :
    e.stepCount ≤ (handleInboundMessage e s).stepCount := by
  rw [handleInboundMessage_stepCount]; split <;> omega

@[simp] lemma handleInboundMessage_serverStep (e : ClientEngine) (s : SyncEvents) :
    (handleInboundMessage e s).serverStep = e.serverStep := by
  rw [handleInboundMessage_eq]; split <;> rfl

@[simp] lemma handleInboundMessage_skipOneStep (e : ClientEngine) (s : SyncEvents) :
    (handleInboundMessage e s).skipOneStep = e.skipOneStep := by
  rw [handleInboundMessage_eq]; split <;> rfl

@[simp] lemma handleInboundMessage_doubleStep (e : ClientEngine) (s : SyncEvents) :
    (handleInboundMessage e s).doubleStep = e.doubleStep := by
  rw [handleInboundMessage_eq]; split <;> rfl

@[simp] lemma handleInboundMessage_inboundMessages (e : ClientEngine) (s : SyncEvents) :
    (handleInboundMessage e s).inboundMessages = e.inboundMessages := by
  rw [handleInboundMessage_eq]; split <;> rfl

@[simp] lemma handleInboundMessage_outboundMessages (e : ClientEngine) (s : SyncEvents) :
    (handleInboundMessage e s).outboundMessages = e.outboundMessages := by
  rw [handleInboundMessage_eq]; split <;> rfl

@[simp] lemma handleInboundMessage_sentMessages (e : ClientEngine) (s : SyncEvents) :
    (handleInboundMessage e s).sentMessages = e.sentMessages := by
  rw [handleInboundMessage_eq]; split <;> rfl

@[simp] lemma handleInboundMessage_issuedMessages (e : ClientEngine) (s : SyncEvents) :
    (handleInboundMessage e s).issuedMessages = e.issuedMessages := by
  rw [handleInboundMessage_eq]; split <;> rfl

@[simp] lemma handleInboundMessage_appliedInputs (e : ClientEngine) (s : SyncEvents) :
    (handleInboundMessage e s).appliedInputs = e.appliedInputs := by
  rw [handleInboundMessage_eq]; split <;> rfl

@[simp] lemma handleInboundMessage_messageIndex (e : ClientEngine) (s : SyncEvents) :
    (handleInboundMessage e s).messageIndex = e.messageIndex := by
  rw [handleInboundMessage_eq]; split <;> rfl

@[simp] lemma handleInboundMessage_delayedInputs (e : ClientEngine) (s : SyncEvents) :
    (handleInboundMessage e s).delayedInputs = e.delayedInputs := by
  rw [handleInboundMessage_eq]; split <;> rfl

@[simp] lemma handleInboundMessage_passive (e : ClientEngine) (s : SyncEvents) :
    (handleInboundMessage e s).passive = e.passive := by
  rw [handleInboundMessage_eq]; split <;> rfl

@[simp] lemma driftCheck_stepCount (T : Nat) (e : ClientEngine) :
    (driftCheck T e).stepCount = e.stepCount := by
  cases h : e.serverStep
  · rw [driftCheck_none T e h]
  · rw [driftCheck_some T _ e h]; split_ifs <;> rfl

@[simp] lemma driftCheck_serverStep (T : Nat) (e : ClientEngine) :
    (driftCheck T e).serverStep = e.serverStep := by
  cases h : e.serverStep
  · rw [driftCheck_none T e h]; exact h
  · rw [driftCheck_some T _ e h]; split_ifs <;> exact h

@[simp] lemma driftCheck_inboundMessages (T : Nat) (e : ClientEngine) :
    (driftCheck T e).inboundMessages = e.inboundMessages := by
  cases h : e.serverStep
  · rw [driftCheck_none T e h]
  · rw [driftCheck_some T _ e h]; split_ifs <;> rfl

@[simp] lemma driftCheck_outboundMessages (T : Nat) (e : ClientEngine) :
    (driftCheck T e).outboundMessages = e.outboundMessages := by
  cases h : e.serverStep
  · rw [driftCheck_none T e h]
  · rw [driftCheck_some T _ e h]; split_ifs <;> rfl

@[simp] lemma driftCheck_sentMessages (T : Nat) (e : ClientEngine) :
    (driftCheck T e).sentMessages = e.sentMessages := by
  cases h : e.serverStep
  · rw [driftCheck_none T e h]
  · rw [driftCheck_some T _ e h]; split_ifs <;> rfl

@[simp] lemma driftCheck_issuedMessages (T : Nat) (e : ClientEngine) :
    (driftCheck T e).issuedMessages = e.issuedMessages := by
  cases h : e.serverStep
  · rw [driftCheck_none T e h]
  · rw [driftCheck_some T _ e h]; split_ifs <;> rfl

@[simp] lemma driftCheck_appliedInputs (T : Nat) (e : ClientEngine) :
    (driftCheck T e).appliedInputs = e.appliedInputs := by
  cases h : e.serverStep
  · rw [driftCheck_none T e h]
  · rw [driftCheck_some T _ e h]; split_ifs <;> rfl

@[simp] lemma driftCheck_messageIndex (T : Nat) (e : ClientEngine) :
    (driftCheck T e).messageIndex = e.messageIndex := by
  cases h : e.serverStep
  · rw [driftCheck_none T e h]
  · rw [driftCheck_some T _ e h]; split_ifs <;> rfl

@[simp] lemma driftCheck_delayedInputs (T : Nat) (e : ClientEngine) :
    (driftCheck T e).delayedInputs = e.delayedInputs := by
  cases h : e.serverStep
  · rw [driftCheck_none T e h]
  · rw [driftCheck_some T _ e h]; split_ifs <;> rfl

@[simp] lemma driftCheck_passive (T : Nat) (e : ClientEngine) :
    (driftCheck T e).passive = e.passive := by
  cases h : e.serverStep
  · rw [driftCheck_none T e h]
  · rw [driftCheck_some T _ e h]; split_ifs <;> rfl

@[simp] lemma gameEngineStep_stepCount (e : ClientEngine) :
    (gameEngineStep e).stepCount = e.stepCount + 1 := rfl

/-! ## Folds of the per-message operations -/

@[simp] lemma foldl_doInputLocal_stepCount (ms : List InputMessage) (e : ClientEngine) :
    (ms.foldl doInputLocal e).stepCount = e.stepCount := by
  induction ms generalizing e with
  | nil => rfl
  | cons m ms ih => simp [ih]

@[simp] lemma foldl_doInputLocal_serverStep (ms : List InputMessage) (e : ClientEngine) :
    (ms.foldl doInputLocal e).serverStep = e.serverStep := by
  induction ms generalizing e with
  | nil => rfl
  | cons m ms ih => simp [ih]

@[simp] lemma foldl_doInputLocal_skipOneStep (ms : List InputMessage) (e : ClientEngine) :
    (ms.foldl doInputLocal e).skipOneStep = e.skipOneStep := by
  induction ms generalizing e with
  | nil => rfl
  | cons m ms ih => simp [ih]

@[simp] lemma foldl_doInputLocal_doubleStep (ms : List InputMessage) (e : ClientEngine) :
    (ms.foldl doInputLocal e).doubleStep = e.doubleStep := by
  induction ms generalizing e with
  | nil => rfl
  | cons m ms ih => simp [ih]

@[simp] lemma foldl_doInputLocal_inboundMessages (ms : List InputMessage) (e : ClientEngine) :
    (ms.foldl doInputLocal e).inboundMessages = e.inboundMessages := by
  induction ms generalizing e with
  | nil => rfl
  | cons m ms ih => simp [ih]

@[simp] lemma foldl_doInputLocal_outboundMessages (ms : List InputMessage) (e : ClientEngine) :
    (ms.foldl doInputLocal e).outboundMessages = e.outboundMessages := by
  induction ms generalizing e with
  | nil => rfl
  | cons m ms ih => simp [ih]

@[simp] lemma foldl_doInputLocal_sentMessages (ms : List InputMessage) (e : ClientEngine) :
    (ms.foldl doInputLocal e).sentMessages = e.sentMessages := by
  induction ms generalizing e with
  | nil => rfl
  | cons m ms ih => simp [ih]

@[simp] lemma foldl_doInputLocal_issuedMessages (ms : List InputMessage) (e : ClientEngine) :
    (ms.foldl doInputLocal e).issuedMessages = e.issuedMessages := by
  induction ms generalizing e with
  | nil => rfl
  | cons m ms ih => simp [ih]

@[simp] lemma foldl_doInputLocal_messageIndex (ms : List InputMessage) (e : ClientEngine) :
    (ms.foldl doInputLocal e).messageIndex = e.messageIndex := by
  induction ms generalizing e with
  | nil => rfl
  | cons m ms ih => simp [ih]

@[simp] lemma foldl_doInputLocal_delayedInputs (ms : List InputMessage) (e : ClientEngine) :
    (ms.foldl doInputLocal e).delayedInputs = e.delayedInputs := by
  induction ms generalizing e with
  | nil => rfl
  | cons m ms ih => simp [ih]

@[simp] lemma foldl_doInputLocal_passive (ms : List InputMessage) (e : ClientEngine) :
    (ms.foldl doInputLocal e).passive = e.passive := by
  induction ms generalizing e with
  | nil => rfl
  | cons m ms ih => simp [ih]

/-- With an active (non-passive) game engine, applying a batch delivers
exactly the batch, in order, to the simulation. -/
lemma foldl_doInputLocal_appliedInputs (ms : List InputMessage) (e : ClientEngine)
    (hp : e.passive = false) :
    (ms.foldl doInputLocal e).appliedInputs = e.appliedInputs ++ ms := by
  induction ms generalizing e with
  | nil => simp
  | cons m ms ih =>
    rw [List.foldl_cons, ih (doInputLocal e m) (by simp [hp])]
    simp [hp]

/-- Applying a batch only ever appends to the applied-inputs log. -/
lemma foldl_doInputLocal_appliedInputs_extends (ms : List InputMessage) (e : ClientEngine) :
    ∃ t, (ms.foldl doInputLocal e).appliedInputs = e.appliedInputs ++ t := by
  induction ms generalizing e with
  | nil => exact ⟨[], by simp⟩
  | cons m ms ih =>
    obtain ⟨t, ht⟩ := ih (doInputLocal e m)
    exact ⟨(if e.passive then [] else [m]) ++ t, by
      rw [List.foldl_cons, ht]; simp⟩

@[simp] lemma foldl_sendInput_stepCount (inputs : List String) (e : ClientEngine) :
    (inputs.foldl (fun acc i => sendInput acc i none) e).stepCount = e.stepCount := by
  induction inputs generalizing e with
  | nil => rfl
  | cons i rest ih => simp [ih]

@[simp] lemma foldl_sendInput_serverStep (inputs : List String) (e : ClientEngine) :
    (inputs.foldl (fun acc i => sendInput acc i none) e).serverStep = e.serverStep := by
  induction inputs generalizing e with
  | nil => rfl
  | cons i rest ih => simp [ih]

@[simp] lemma foldl_sendInput_skipOneStep (inputs : List String) (e : ClientEngine) :
    (inputs.foldl (fun acc i => sendInput acc i none) e).skipOneStep = e.skipOneStep := by
  induction inputs generalizing e with
  | nil => rfl
  | cons i rest ih => simp [ih]

@[simp] lemma foldl_sendInput_doubleStep (inputs : List String) (e : ClientEngine) :
    (inputs.foldl (fun acc i => sendInput acc i none) e).doubleStep = e.doubleStep := by
  induction inputs generalizing e with
  | nil => rfl
  | cons i rest ih => simp [ih]

@[simp] lemma foldl_sendInput_inboundMessages (inputs : List String) (e : ClientEngine) :
    (inputs.foldl (fun acc i => sendInput acc i none) e).inboundMessages =
      e.inboundMessages := by
  induction inputs generalizing e with
  | nil => rfl
  | cons i rest ih => simp [ih]

@[simp] lemma foldl_sendInput_sentMessages (inputs : List String) (e : ClientEngine) :
    (inputs.foldl (fun acc i => sendInput acc i none) e).sentMessages =
      e.sentMessages := by
  induction inputs generalizing e with
  | nil => rfl
  | cons i rest ih => simp [ih]

@[simp] lemma foldl_sendInput_passive (inputs : List String) (e : ClientEngine) :
    (inputs.foldl (fun acc i => sendInput acc i none) e).passive = e.passive := by
  induction inputs generalizing e with
  | nil => rfl
  | cons i rest ih => simp [ih]

@[simp] lemma foldl_handleInbound_serverStep (l : List SyncEvents) (e : ClientEngine) :
    (l.foldl handleInboundMessage e).serverStep = e.serverStep := by
  induction l generalizing e with
  | nil => rfl
  | cons s l ih => simp [ih]

@[simp] lemma foldl_handleInbound_skipOneStep (l : List SyncEvents) (e : ClientEngine) :
    (l.foldl handleInboundMessage e).skipOneStep = e.skipOneStep := by
  induction l generalizing e with
  | nil => rfl
  | cons s l ih => simp [ih]

@[simp] lemma foldl_handleInbound_doubleStep (l : List SyncEvents) (e : ClientEngine) :
    (l.foldl handleInboundMessage e).doubleStep = e.doubleStep := by
  induction l generalizing e with
  | nil => rfl
  | cons s l ih => simp [ih]

@[simp] lemma foldl_handleInbound_outboundMessages (l : List SyncEvents) (e : ClientEngine) :
    (l.foldl handleInboundMessage e).outboundMessages = e.outboundMessages := by
  induction l generalizing e with
  | nil => rfl
  | cons s l ih => simp [ih]

@[simp] lemma foldl_handleInbound_sentMessages (l : List SyncEvents) (e : ClientEngine) :
    (l.foldl handleInboundMessage e).sentMessages = e.sentMessages := by
  induction l generalizing e with
  | nil => rfl
  | cons s l ih => simp [ih]

@[simp] lemma foldl_handleInbound_issuedMessages (l : List SyncEvents) (e : ClientEngine) :
    (l.foldl handleInboundMessage e).issuedMessages = e.issuedMessages := by
  induction l generalizing e with
  | nil => rfl
  | cons s l ih => simp [ih]

@[simp] lemma foldl_handleInbound_appliedInputs (l : List SyncEvents) (e : ClientEngine) :
    (l.foldl handleInboundMessage e).appliedInputs = e.appliedInputs := by
  induction l generalizing e with
  | nil => rfl
  | cons s l ih => simp [ih]

@[simp] lemma foldl_handleInbound_messageIndex (l : List SyncEvents) (e : ClientEngine) :
    (l.foldl handleInboundMessage e).messageIndex = e.messageIndex := by
  induction l generalizing e with
  | nil => rfl
  | cons s l ih => simp [ih]

@[simp] lemma foldl_handleInbound_delayedInputs (l : List SyncEvents) (e : ClientEngine) :
    (l.foldl handleInboundMessage e).delayedInputs = e.delayedInputs := by
  induction l generalizing e with
  | nil => rfl
  | cons s l ih => simp [ih]

@[simp] lemma foldl_handleInbound_passive (l : List SyncEvents) (e : ClientEngine) :
    (l.foldl handleInboundMessage e).passive = e.passive := by
  induction l generalizing e with
  | nil => rfl
  | cons s l ih => simp [ih]

lemma foldl_handleInbound_stepCount_le (l : List SyncEvents) (e : ClientEngine) :
    e.stepCount ≤ (l.foldl handleInboundMessage e).stepCount := by
  induction l generalizing e with
  | nil => exact Nat.le_refl _
  | cons s l ih =>
    rw [List.foldl_cons]
    exact Nat.le_trans (handleInboundMessage_stepCount_le e s) (ih _)

@[simp] lemma newInputMessage_command (e : ClientEngine) (i : String) (o : Option String) :
    (newInputMessage e i o).command = "move" := rfl

@[simp] lemma newInputMessage_messageIndex (e : ClientEngine) (i : String) (o : Option String) :
    (newInputMessage e i o).messageIndex = e.messageIndex := rfl

@[simp] lemma newInputMessage_step (e : ClientEngine) (i : String) (o : Option String) :
    (newInputMessage e i o).step = e.stepCount := rfl

@[simp] lemma newInputMessage_input (e : ClientEngine) (i : String) (o : Option String) :
    (newInputMessage e i o).input = i := rfl

@[simp] lemma applyDelayedInputs_stepCount (e : ClientEngine) :
    (applyDelayedInputs e).stepCount = e.stepCount := by
  cases h : e.delayedInputs
  · rw [applyDelayedInputs_none e h]
  · rw [applyDelayedInputs_some e _ h]; simp

@[simp] lemma applyDelayedInputs_serverStep (e : ClientEngine) :
    (applyDelayedInputs e).serverStep = e.serverStep := by
  cases h : e.delayedInputs
  · rw [applyDelayedInputs_none e h]
  · rw [applyDelayedInputs_some e _ h]; simp

@[simp] lemma applyDelayedInputs_skipOneStep (e : ClientEngine) :
    (applyDelayedInputs e).skipOneStep = e.skipOneStep := by
  cases h : e.delayedInputs
  · rw [applyDelayedInputs_none e h]
  · rw [applyDelayedInputs_some e _ h]; simp

@[simp] lemma applyDelayedInputs_doubleStep (e : ClientEngine) :
    (applyDelayedInputs e).doubleStep = e.doubleStep := by
  cases h : e.delayedInputs
  · rw [applyDelayedInputs_none e h]
  · rw [applyDelayedInputs_some e _ h]; simp

@[simp] lemma applyDelayedInputs_inboundMessages (e : ClientEngine) :
    (applyDelayedInputs e).inboundMessages = e.inboundMessages := by
  cases h : e.delayedInputs
  · rw [applyDelayedInputs_none e h]
  · rw [applyDelayedInputs_some e _ h]; simp

@[simp] lemma applyDelayedInputs_outboundMessages (e : ClientEngine) :
    (applyDelayedInputs e).outboundMessages = e.outboundMessages := by
  cases h : e.delayedInputs
  · rw [applyDelayedInputs_none e h]
  · rw [applyDelayedInputs_some e _ h]; simp

@[simp] lemma applyDelayedInputs_sentMessages (e : ClientEngine) :
    (applyDelayedInputs e).sentMessages = e.sentMessages := by
  cases h : e.delayedInputs
  · rw [applyDelayedInputs_none e h]
  · rw [applyDelayedInputs_some e _ h]; simp

@[simp] lemma applyDelayedInputs_issuedMessages (e : ClientEngine) :
    (applyDelayedInputs e).issuedMessages = e.issuedMessages := by
  cases h : e.delayedInputs
  · rw [applyDelayedInputs_none e h]
  · rw [applyDelayedInputs_some e _ h]; simp

@[simp] lemma applyDelayedInputs_messageIndex (e : ClientEngine) :
    (applyDelayedInputs e).messageIndex = e.messageIndex := by
  cases h : e.delayedInputs
  · rw [applyDelayedInputs_none e h]
  · rw [applyDelayedInputs_some e _ h]; simp

@[simp] lemma applyDelayedInputs_passive (e : ClientEngine) :
    (applyDelayedInputs e).passive = e.passive := by
  cases h : e.delayedInputs
  · rw [applyDelayedInputs_none e h]
  · rw [applyDelayedInputs_some e _ h]; simp

@[simp] lemma handleOutboundInput_stepCount (e : ClientEngine) :
    (handleOutboundInput e).stepCount = e.stepCount := rfl

@[simp] lemma handleOutboundInput_serverStep (e : ClientEngine) :
    (handleOutboundInput e).serverStep = e.serverStep := rfl

@[simp] lemma handleOutboundInput_skipOneStep (e : ClientEngine) :
    (handleOutboundInput e).skipOneStep = e.skipOneStep := rfl

@[simp] lemma handleOutboundInput_doubleStep (e : ClientEngine) :
    (handleOutboundInput e).doubleStep = e.doubleStep := rfl

@[simp] lemma handleOutboundInput_inboundMessages (e : ClientEngine) :
    (handleOutboundInput e).inboundMessages = e.inboundMessages := rfl

@[simp] lemma handleOutboundInput_outboundMessages (e : ClientEngine) :
    (handleOutboundInput e).outboundMessages = [] := rfl

@[simp] lemma handleOutboundInput_sentMessages (e : ClientEngine) :
    (handleOutboundInput e).sentMessages = e.sentMessages ++ e.outboundMessages := rfl

@[simp] lemma handleOutboundInput_issuedMessages (e : ClientEngine) :
    (handleOutboundInput e).issuedMessages = e.issuedMessages := rfl

@[simp] lemma handleOutboundInput_appliedInputs (e : ClientEngine) :
    (handleOutboundInput e).appliedInputs = e.appliedInputs := rfl

@[simp] lemma handleOutboundInput_messageIndex (e : ClientEngine) :
    (handleOutboundInput e).messageIndex = e.messageIndex := rfl

@[simp] lemma handleOutboundInput_delayedInputs (e : ClientEngine) :
    (handleOutboundInput e).delayedInputs = e.delayedInputs := rfl

@[simp] lemma handleOutboundInput_passive (e : ClientEngine) :
    (handleOutboundInput e).passive = e.passive := rfl

@[simp] lemma gameEngineStep_serverStep (e : ClientEngine) :
    (gameEngineStep e).serverStep = e.serverStep := rfl

@[simp] lemma gameEngineStep_skipOneStep (e : ClientEngine) :
    (gameEngineStep e).skipOneStep = e.skipOneStep := rfl

@[simp] lemma gameEngineStep_doubleStep (e : ClientEngine) :
    (gameEngineStep e).doubleStep = e.doubleStep := rfl

@[simp] lemma gameEngineStep_inboundMessages (e : ClientEngine) :
    (gameEngineStep e).inboundMessages = e.inboundMessages := rfl

@[simp] lemma gameEngineStep_outboundMessages (e : ClientEngine) :
    (gameEngineStep e).outboundMessages = e.outboundMessages := rfl

@[simp] lemma gameEngineStep_sentMessages (e : ClientEngine) :
    (gameEngineStep e).sentMessages = e.sentMessages := rfl

@[simp] lemma gameEngineStep_issuedMessages (e : ClientEngine) :
    (gameEngineStep e).issuedMessages = e.issuedMessages := rfl

@[simp] lemma gameEngineStep_appliedInputs (e : ClientEngine) :
    (gameEngineStep e).appliedInputs = e.appliedInputs := rfl

@[simp] lemma gameEngineStep_messageIndex (e : ClientEngine) :
    (gameEngineStep e).messageIndex = e.messageIndex := rfl

@[simp] lemma gameEngineStep_delayedInputs (e : ClientEngine) :
    (gameEngineStep e).delayedInputs = e.delayedInputs := rfl

@[simp] lemma gameEngineStep_passive (e : ClientEngine) :
    (gameEngineStep e).passive = e.passive := rfl

/-! ## The inbound drain loop -/

lemma drainInboundLoop_spec (fuel : Nat) :
    ∀ (pending : List SyncEvents) (e : ClientEngine), pending.length ≤ fuel →
      drainInboundLoop fuel e pending =
        (pending.reverse.foldl handleInboundMessage e, pending.reverse) := by
  induction fuel with
  | zero =>
    intro pending e h
    have hnil : pending = [] := List.eq_nil_of_length_eq_zero (Nat.le_zero.mp h)
    subst hnil
    rfl
  | succ fuel ih =>
    intro pending e h
    rcases List.eq_nil_or_concat pending with rfl | ⟨l, a, rfl⟩
    · rfl
    · rw [List.concat_eq_append] at h ⊢
      have hlen : l.length ≤ fuel := by
        simp only [List.length_append, List.length_cons, List.length_nil] at h
        omega
      simp only [drainInboundLoop, List.getLast?_concat, List.dropLast_concat]
      rw [ih l (handleInboundMessage e a) hlen]
      simp [List.reverse_append]

/-- The semantics of the `while`/`pop` drain: payloads are handled in
reverse arrival order, and the resulting engine is the fold of
`handleInboundMessage` over that reversed list. -/
lemma drainInbound_spec (e : ClientEngine) (pending : List SyncEvents) :
    drainInbound e pending =
      (pending.reverse.foldl handleInboundMessage e, pending.reverse) :=
  drainInboundLoop_spec pending.length pending e (Nat.le_refl _)

/-! ## The maximum-stepCount computation -/

lemma maxStepCount_foldl (s : SyncEvents) : ∀ acc : Nat,
    s.foldl
      (fun max el =>
        match el with
        | some sc => if sc ≠ 0 then Nat.max max sc else max
        | none => max)
      acc
      = (s.filterMap id).foldl Nat.max acc := by
  induction s with
  | nil => intro acc; rfl
  | cons el s ih =>
    intro acc
    cases el with
    | none => simpa using ih acc
    | some sc =>
      by_cases h0 : sc = 0
      · subst h0
        simpa using ih acc
      · simp only [List.foldl_cons, List.filterMap_cons, id, h0]
        simpa [h0] using ih (Nat.max acc sc)

/-- The computed authoritative step is the maximum, over the events that
carry a `stepCount`, of those counts (base 0).  Note a carried count of
`0` contributes nothing to a maximum with base `0`, so the truthiness
test in the source does not change this value. -/
lemma maxStepCount_eq_filterMap (s : SyncEvents) :
    maxStepCount s = (s.filterMap id).foldl Nat.max 0 :=
  maxStepCount_foldl s 0

/-! ## Ticks -/

lemma runTicks_nil (e : ClientEngine) : runTicks e [] = e := rfl

lemma runTicks_cons (e : ClientEngine) (ins : List String) (sched : List (List String)) :
    runTicks e (ins :: sched) = runTicks (stepWithInputs e ins) sched := rfl

lemma runTicks_append (e : ClientEngine) (s1 s2 : List (List String)) :
    runTicks e (s1 ++ s2) = runTicks (runTicks e s1) s2 := by
  unfold runTicks
  exact List.foldl_append ..

lemma stepWithInputs_skip (e : ClientEngine) (ins : List String)
    (h : e.skipOneStep = true) :
    stepWithInputs e ins = { e with skipOneStep := false } := by
  unfold stepWithInputs
  rw [if_pos h]

lemma stepWithInputs_not_skip (e : ClientEngine) (ins : List String)
    (h : e.skipOneStep = false) :
    stepWithInputs e ins =
      gameEngineStep (applyDelayedInputs (handleOutboundInput
        (driftCheck STEP_DRIFT_THRESHOLD
          { (drainInbound (ins.foldl (fun acc i => sendInput acc i none) e)
               (ins.foldl (fun acc i => sendInput acc i none) e).inboundMessages).1 with
            inboundMessages := [] }))) := by
  unfold stepWithInputs
  rw [if_neg (by rw [h]; exact Bool.false_ne_true)]

lemma pushToLast_replicate (d : Nat) (m : InputMessage) :
    pushToLast (List.replicate (d + 1) []) m = List.replicate d [] ++ [[m]] := by
  unfold pushToLast
  rw [List.dropLast_replicate, List.replicate_succ' d, Nat.add_sub_cancel]
  simp

lemma sendInput_stepCount_generic (e : ClientEngine) (i : String) (o : Option String) :
    (sendInput e i o).stepCount = e.stepCount := sendInput_stepCount e i o

/-- One tick with no new input, on a clean engine (nothing pending
inbound or outbound, no authoritative step, not passive) whose delay
buffer starts with batch `b`: the tick applies `b`, rotates the buffer
and advances the step count. -/
lemma stepWithInputs_nil_tick (sc mi : Nat) (db : Bool) (b : List InputMessage)
    (bs : List (List InputMessage)) (ai sm qm : List InputMessage) :
    stepWithInputs
      { stepCount := sc, serverStep := none, skipOneStep := false, doubleStep := db,
        inboundMessages := [], outboundMessages := [], delayedInputs := some (b :: bs),
        messageIndex := mi, passive := false, appliedInputs := ai, sentMessages := sm,
        issuedMessages := qm } [] =
      { stepCount := sc + 1, serverStep := none, skipOneStep := false, doubleStep := db,
        inboundMessages := [], outboundMessages := [], delayedInputs := some (bs ++ [[]]),
        messageIndex := mi, passive := false, appliedInputs := ai ++ b, sentMessages := sm,
        issuedMessages := qm } := by
  rw [stepWithInputs_not_skip _ _ rfl]
  simp [drainInbound, drainInboundLoop, driftCheck, handleOutboundInput,
        applyDelayedInputs, gameEngineStep, foldl_doInputLocal_appliedInputs]

/-- Running `m` input-free ticks on a clean engine consumes the first
`m` batches of the delay buffer in order and appends `m` fresh empty
batches. -/
lemma runTicks_empty_sched (m : Nat) : ∀ (sc mi : Nat) (db : Bool)
    (B : List (List InputMessage)) (ai sm qm : List InputMessage), m ≤ B.length →
    runTicks
      { stepCount := sc, serverStep := none, skipOneStep := false, doubleStep := db,
        inboundMessages := [], outboundMessages := [], delayedInputs := some B,
        messageIndex := mi, passive := false, appliedInputs := ai, sentMessages := sm,
        issuedMessages := qm } (List.replicate m []) =
      { stepCount := sc + m, serverStep := none, skipOneStep := false, doubleStep := db,
        inboundMessages := [], outboundMessages := [],
        delayedInputs := some (B.drop m ++ List.replicate m []),
        messageIndex := mi, passive := false,
        appliedInputs := ai ++ (B.take m).flatten, sentMessages := sm,
        issuedMessages := qm } := by
  induction m with
  | zero =>
    intro sc mi db B ai sm qm _
    simp [runTicks_nil]
  | succ m ih =>
    intro sc mi db B ai sm qm hlen
    cases B with
    | nil => simp at hlen
    | cons b bs =>
      rw [List.replicate_succ, runTicks_cons, stepWithInputs_nil_tick]
      have hm : m ≤ (bs ++ [[]]).length := by
        simp only [List.length_cons] at hlen
        simp only [List.length_append, List.length_cons, List.length_nil]
        omega
      rw [ih (sc + 1) mi db (bs ++ [[]]) (ai ++ b) sm qm hm]
      have hm' : m ≤ bs.length := by
        simp only [List.length_cons] at hlen
        omega
      rw [ClientEngine.mk.injEq]
      refine ⟨by omega, rfl, rfl, rfl, rfl, rfl, ?_, rfl, rfl, ?_, rfl, rfl⟩
      · rw [List.drop_succ_cons, List.drop_append_of_le_length hm', List.append_assoc,
            List.singleton_append, ← List.replicate_succ]
      · rw [List.take_succ_cons, List.flatten_cons, List.take_append_of_le_length hm',
            List.append_assoc]

/-- Running `T` input-free ticks on a clean engine whose delay buffer is
all-empty leaves the buffer all-empty and advances the step count by
`T`. -/
lemma runTicks_all_empty (T : Nat) : ∀ (sc mi : Nat) (db : Bool) (d : Nat)
    (ai sm qm : List InputMessage),
    runTicks
      { stepCount := sc, serverStep := none, skipOneStep := false, doubleStep := db,
        inboundMessages := [], outboundMessages := [],
        delayedInputs := some (List.replicate (d + 1) []),
        messageIndex := mi, passive := false, appliedInputs := ai, sentMessages := sm,
        issuedMessages := qm } (List.replicate T []) =
      { stepCount := sc + T, serverStep := none, skipOneStep := false, doubleStep := db,
        inboundMessages := [], outboundMessages := [],
        delayedInputs := some (List.replicate (d + 1) []),
        messageIndex := mi, passive := false, appliedInputs := ai, sentMessages := sm,
        issuedMessages := qm } := by
  induction T with
  | zero => intro sc mi db d ai sm qm; simp [runTicks_nil]
  | succ T ih =>
    intro sc mi db d ai sm qm
    rw [List.replicate_succ ([] : List String), runTicks_cons]
    rw [show List.replicate (d + 1) ([] : List InputMessage) = [] :: List.replicate d []
        from List.replicate_succ .. ]
    rw [stepWithInputs_nil_tick]
    rw [show List.replicate d ([] : List InputMessage) ++ [[]] = List.replicate (d + 1) []
        from (List.replicate_succ' ..).symm]
    rw [List.append_nil]
    rw [ih (sc + 1) mi db d ai sm qm]
    rw [ClientEngine.mk.injEq]
    exact ⟨by omega, rfl, rfl, rfl, rfl, rfl, by rw [List.replicate_succ], rfl, rfl, rfl,
      rfl, rfl⟩

/-- The tick at which one input `inp` is issued (at the `client.preStep`
hook), on a clean engine with an all-empty delay buffer of `d + 1`
batches: the message is queued into the newest batch and flushed
outbound; the oldest batch is dequeued and applied. -/
lemma stepWithInputs_input_tick (sc mi : Nat) (db : Bool) (d : Nat) (inp : String)
    (ai sm qm : List InputMessage) :
    stepWithInputs
      { stepCount := sc, serverStep := none, skipOneStep := false, doubleStep := db,
        inboundMessages := [], outboundMessages := [],
        delayedInputs := some (List.replicate (d + 1) []),
        messageIndex := mi, passive := false, appliedInputs := ai, sentMessages := sm,
        issuedMessages := qm } [inp] =
      { stepCount := sc + 1, serverStep := none, skipOneStep := false, doubleStep := db,
        inboundMessages := [], outboundMessages := [],
        delayedInputs := some ((List.replicate d [] ++
          [[InputMessage.mk "move" mi sc inp none]]).tail ++ [[]]),
        messageIndex := mi + 1, passive := false,
        appliedInputs :=
          ai ++ (List.replicate d [] ++ [[InputMessage.mk "move" mi sc inp none]]).headD [],
        sentMessages := sm ++ [InputMessage.mk "move" mi sc inp none],
        issuedMessages := qm ++ [InputMessage.mk "move" mi sc inp none] } := by
  rw [stepWithInputs_not_skip _ _ rfl]
  rw [List.foldl_cons, List.foldl_nil]
  rw [sendInput_eq_some _ _ _ _ rfl]
  rw [pushToLast_replicate]
  simp [drainInbound, drainInboundLoop, driftCheck, handleOutboundInput,
        applyDelayedInputs, gameEngineStep, foldl_doInputLocal_appliedInputs,
        newInputMessage]

/-! ## The applied-inputs log only grows -/

lemma sendInput_appliedInputs_extends (e : ClientEngine) (i : String) (o : Option String) :
    ∃ t, (sendInput e i o).appliedInputs = e.appliedInputs ++ t := by
  cases h : e.delayedInputs
  · exact ⟨_, by rw [sendInput_eq_none e i o h]⟩
  · exact ⟨[], by rw [sendInput_eq_some e i o _ h, List.append_nil]⟩

lemma foldl_sendInput_appliedInputs_extends (inputs : List String) :
    ∀ e : ClientEngine,
      ∃ t, (inputs.foldl (fun acc i => sendInput acc i none) e).appliedInputs =
        e.appliedInputs ++ t := by
  induction inputs with
  | nil => exact fun e => ⟨[], by simp⟩
  | cons i rest ih =>
    intro e
    obtain ⟨t1, h1⟩ := sendInput_appliedInputs_extends e i none
    obtain ⟨t2, h2⟩ := ih (sendInput e i none)
    exact ⟨t1 ++ t2, by rw [List.foldl_cons, h2, h1, List.append_assoc]⟩

lemma applyDelayedInputs_appliedInputs_extends (e : ClientEngine) :
    ∃ t, (applyDelayedInputs e).appliedInputs = e.appliedInputs ++ t := by
  cases h : e.delayedInputs
  · exact ⟨[], by rw [applyDelayedInputs_none e h, List.append_nil]⟩
  · rename_i buf
    obtain ⟨t, ht⟩ := foldl_doInputLocal_appliedInputs_extends (buf.headD []) e
    exact ⟨t, by rw [applyDelayedInputs_some e buf h]; exact ht⟩

lemma stepWithInputs_appliedInputs_extends (e : ClientEngine) (ins : List String) :
    ∃ t, (stepWithInputs e ins).appliedInputs = e.appliedInputs ++ t := by
  by_cases h : e.skipOneStep
  · exact ⟨[], by rw [stepWithInputs_skip e ins h, List.append_nil]⟩
  · rw [stepWithInputs_not_skip e ins (by simpa using h)]
    obtain ⟨t1, h1⟩ := foldl_sendInput_appliedInputs_extends ins e
    obtain ⟨t2, h2⟩ := applyDelayedInputs_appliedInputs_extends
      (handleOutboundInput (driftCheck STEP_DRIFT_THRESHOLD
        { (drainInbound (ins.foldl (fun acc i => sendInput acc i none) e)
             (ins.foldl (fun acc i => sendInput acc i none) e).inboundMessages).1 with
          inboundMessages := [] }))
    refine ⟨t1 ++ t2, ?_⟩
    rw [gameEngineStep_appliedInputs, h2]
    simp only [handleOutboundInput_appliedInputs, driftCheck_appliedInputs,
      drainInbound_spec, foldl_handleInbound_appliedInputs]
    rw [h1, List.append_assoc]

lemma runTicks_appliedInputs_extends (sched : List (List String)) :
    ∀ e : ClientEngine,
      ∃ t, (runTicks e sched).appliedInputs = e.appliedInputs ++ t := by
  induction sched with
  | nil => exact fun e => ⟨[], by simp [runTicks_nil]⟩
  | cons ins sched ih =>
    intro e
    obtain ⟨t1, h1⟩ := stepWithInputs_appliedInputs_extends e ins
    obtain ⟨t2, h2⟩ := ih (stepWithInputs e ins)
    exact ⟨t1 ++ t2, by rw [runTicks_cons, h2, h1, List.append_assoc]⟩

/-! ## Step-count monotonicity -/

@[simp] lemma receiveWorldUpdate_stepCount (e : ClientEngine) (w : SyncEvents) :
    (receiveWorldUpdate e w).stepCount = e.stepCount := rfl

@[simp] lemma receiveWorldUpdate_inboundMessages (e : ClientEngine) (w : SyncEvents) :
    (receiveWorldUpdate e w).inboundMessages = e.inboundMessages ++ [w] := rfl

@[simp] lemma receiveWorldUpdate_outboundMessages (e : ClientEngine) (w : SyncEvents) :
    (receiveWorldUpdate e w).outboundMessages = e.outboundMessages := rfl

@[simp] lemma receiveWorldUpdate_sentMessages (e : ClientEngine) (w : SyncEvents) :
    (receiveWorldUpdate e w).sentMessages = e.sentMessages := rfl

@[simp] lemma receiveWorldUpdate_issuedMessages (e : ClientEngine) (w : SyncEvents) :
    (receiveWorldUpdate e w).issuedMessages = e.issuedMessages := rfl

@[simp] lemma receiveWorldUpdate_messageIndex (e : ClientEngine) (w : SyncEvents) :
    (receiveWorldUpdate e w).messageIndex = e.messageIndex := rfl

lemma stepWithInputs_stepCount_le (e : ClientEngine) (ins : List String) :
    e.stepCount ≤ (stepWithInputs e ins).stepCount := by
  by_cases h : e.skipOneStep
  · rw [stepWithInputs_skip e ins h]
  · rw [stepWithInputs_not_skip e ins (by simpa using h)]
    have h1 := foldl_handleInbound_stepCount_le
      ((ins.foldl (fun acc i => sendInput acc i none) e).inboundMessages.reverse)
      (ins.foldl (fun acc i => sendInput acc i none) e)
    have h2 : (ins.foldl (fun acc i => sendInput acc i none) e).stepCount = e.stepCount :=
      foldl_sendInput_stepCount ins e
    simp only [gameEngineStep_stepCount, applyDelayedInputs_stepCount,
      handleOutboundInput_stepCount, driftCheck_stepCount, drainInbound_spec]
    omega

lemma applyAction_stepCount_le (e : ClientEngine) (a : ClientAction) :
    e.stepCount ≤ (applyAction e a).stepCount := by
  cases a with
  | tick ins => exact stepWithInputs_stepCount_le e ins
  | worldUpdate w => exact Nat.le_refl _

lemma runActions_stepCount_le (acts : List ClientAction) :
    ∀ e : ClientEngine, e.stepCount ≤ (runActions e acts).stepCount := by
  induction acts with
  | nil => exact fun e => Nat.le_refl _
  | cons a acts ih =>
    intro e
    exact Nat.le_trans (applyAction_stepCount_le e a) (ih (applyAction e a))

/-! ## The outbound-dispatch invariant -/

lemma OutboundInv_init (D p : Nat) : OutboundInv (initMessageIndex p) (mkClientEngine D p) :=
  ⟨rfl, rfl, by simp [mkClientEngine]⟩

lemma OutboundInv_sendInput (base : Nat) (e : ClientEngine) (i : String) (o : Option String)
    (h : OutboundInv base e) : OutboundInv base (sendInput e i o) := by
  obtain ⟨h1, h2, h3⟩ := h
  refine ⟨?_, ?_, ?_⟩
  · rw [sendInput_sentMessages, sendInput_outboundMessages, sendInput_issuedMessages,
      ← List.append_assoc, h1]
  · rw [sendInput_issuedMessages, List.map_append, h2, List.length_append]
    simp only [List.map_cons, List.map_nil, newInputMessage_messageIndex, h3,
      List.length_cons, List.length_nil]
    rw [List.range'_concat]
    simp
  · rw [sendInput_messageIndex, sendInput_issuedMessages, List.length_append, h3]
    simp only [List.length_cons, List.length_nil]
    omega

lemma OutboundInv_foldl_sendInput (base : Nat) (inputs : List String) :
    ∀ e : ClientEngine, OutboundInv base e →
      OutboundInv base (inputs.foldl (fun acc i => sendInput acc i none) e) := by
  induction inputs with
  | nil => exact fun e h => h
  | cons i rest ih =>
    intro e h
    rw [List.foldl_cons]
    exact ih (sendInput e i none) (OutboundInv_sendInput base e i none h)

lemma OutboundInv_handleOutboundInput (base : Nat) (e : ClientEngine)
    (h : OutboundInv base e) : OutboundInv base (handleOutboundInput e) := by
  obtain ⟨h1, h2, h3⟩ := h
  exact ⟨by simp [h1], by simpa using h2, by simpa using h3⟩

lemma OutboundInv_stepWithInputs (base : Nat) (e : ClientEngine) (ins : List String)
    (h : OutboundInv base e) : OutboundInv base (stepWithInputs e ins) := by
  by_cases hs : e.skipOneStep
  · rw [stepWithInputs_skip e ins hs]
    exact h
  · rw [stepWithInputs_not_skip e ins (by simpa using hs)]
    have h4 := OutboundInv_foldl_sendInput base ins e h
    obtain ⟨h1, h2, h3⟩ := h4
    have h5 : OutboundInv base
        { (drainInbound (ins.foldl (fun acc i => sendInput acc i none) e)
             (ins.foldl (fun acc i => sendInput acc i none) e).inboundMessages).1 with
          inboundMessages := [] } := by
      refine ⟨?_, ?_, ?_⟩ <;>
        simp only [drainInbound_spec, foldl_handleInbound_sentMessages,
          foldl_handleInbound_outboundMessages, foldl_handleInbound_issuedMessages,
          foldl_handleInbound_messageIndex]
      · exact h1
      · exact h2
      · exact h3
    have h6 : OutboundInv base
        (driftCheck STEP_DRIFT_THRESHOLD
          { (drainInbound (ins.foldl (fun acc i => sendInput acc i none) e)
               (ins.foldl (fun acc i => sendInput acc i none) e).inboundMessages).1 with
            inboundMessages := [] }) := by
      refine ⟨?_, ?_, ?_⟩ <;>
        simp only [driftCheck_sentMessages, driftCheck_outboundMessages,
          driftCheck_issuedMessages, driftCheck_messageIndex]
      · exact h5.1
      · exact h5.2.1
      · exact h5.2.2
    obtain ⟨g1, g2, g3⟩ := OutboundInv_handleOutboundInput base _ h6
    refine ⟨?_, ?_, ?_⟩
    · simpa using g1
    · simpa using g2
    · simpa using g3

lemma OutboundInv_applyAction (base : Nat) (e : ClientEngine) (a : ClientAction)
    (h : OutboundInv base e) : OutboundInv base (applyAction e a) := by
  cases a with
  | tick ins => exact OutboundInv_stepWithInputs base e ins h
  | worldUpdate w => exact h

lemma OutboundInv_runActions (base : Nat) (acts : List ClientAction) :
    ∀ e : ClientEngine, OutboundInv base e → OutboundInv base (runActions e acts) := by
  induction acts with
  | nil => exact fun e h => h
  | cons a acts ih =>
    exact fun e h => ih (applyAction e a) (OutboundInv_applyAction base e a h)

/-! ## Further helpers for the claim proofs -/

lemma mkClientEngine_eq (D p : Nat) (hD : D ≠ 0) :
    mkClientEngine D p =
      { stepCount := 0, serverStep := none, skipOneStep := false, doubleStep := false,
        inboundMessages := [], outboundMessages := [],
        delayedInputs := some (List.replicate D []), messageIndex := p * 10000,
        passive := false, appliedInputs := [], sentMessages := [],
        issuedMessages := [] } := by
  unfold mkClientEngine mkDelayedInputs initMessageIndex
  rw [if_pos hD]

lemma flatten_replicate_nil (n : Nat) :
    (List.replicate n ([] : List InputMessage)).flatten = [] := by
  induction n with
  | zero => rfl
  | succ n ih =>
    rw [List.replicate_succ, List.flatten_cons, ih]
    rfl

lemma driftCheck_skip_set (T s : Nat) (x : ClientEngine) (hs : x.serverStep = some s)
    (h0 : s ≠ 0) (hgt : x.stepCount > s + T) :
    driftCheck T x = { x with skipOneStep := true } := by
  rw [driftCheck_some T s x hs, if_neg h0, if_pos hgt]

lemma stepWithInputs_inboundMessages_of_not_skip (e : ClientEngine) (ins : List String)
    (h : e.skipOneStep = false) : (stepWithInputs e ins).inboundMessages = [] := by
  rw [stepWithInputs_not_skip e ins h]
  simp

lemma stepWithInputs_stepCount_of_empty_inbound (x : ClientEngine) (ins : List String)
    (hskip : x.skipOneStep = false) (hin : x.inboundMessages = []) :
    (stepWithInputs x ins).stepCount = x.stepCount + 1 := by
  rw [stepWithInputs_not_skip x ins hskip]
  simp [drainInbound_spec, hin]

lemma stepWithInputs_skipOneStep_of_drift (e : ClientEngine) (s : Nat) (ins : List String)
    (h1 : e.skipOneStep = false) (h2 : e.inboundMessages = [])
    (h3 : e.serverStep = some s) (h4 : s ≠ 0)
    (h5 : e.stepCount > s + STEP_DRIFT_THRESHOLD) :
    (stepWithInputs e ins).skipOneStep = true := by
  rw [stepWithInputs_not_skip e ins h1]
  simp only [gameEngineStep_skipOneStep, applyDelayedInputs_skipOneStep,
    handleOutboundInput_skipOneStep]
  rw [driftCheck_skip_set STEP_DRIFT_THRESHOLD s _
    (by
      simp only [drainInbound_spec, foldl_handleInbound_serverStep,
        foldl_sendInput_serverStep]
      exact h3)
    h4
    (by
      simp only [drainInbound_spec, foldl_sendInput_inboundMessages, h2,
        List.reverse_nil, List.foldl_nil, foldl_sendInput_stepCount]
      exact h5)]

lemma issueMany_issuedMessages_length (e : ClientEngine) (n : Nat) :
    (issueMany e n).issuedMessages.length = e.issuedMessages.length + n := by
  induction n with
  | zero => rfl
  | succ n ih => simp [issueMany, ih]; omega

lemma messageIndices_eq (p n : Nat) :
    messageIndices p n = List.range' (p * 10000) n := by
  have hInv : OutboundInv (initMessageIndex p) (issueMany (mkClientEngine 0 p) n) := by
    induction n with
    | zero => exact OutboundInv_init 0 p
    | succ n ih => exact OutboundInv_sendInput _ _ _ _ ih
  have hlen : (issueMany (mkClientEngine 0 p) n).issuedMessages.length = n := by
    simpa [mkClientEngine] using issueMany_issuedMessages_length (mkClientEngine 0 p) n
  unfold messageIndices
  rw [hInv.2.1, hlen]
  rfl

lemma runTicks_singleton (e : ClientEngine) (ins : List String) :
    runTicks e [ins] = stepWithInputs e ins := rfl

/-! ## Claim theorems -/

/-- C2: Every `InputMessage` issued via `sendInput` appears exactly once
in the outbound transmission stream, in strict FIFO issuance order,
regardless of the delayed-input configuration: over any interleaving of
ticks and world-update arrivals, the transmitted stream followed by the
still-queued messages equals the issuance log, and the issuance log
carries consecutive (hence pairwise distinct) message indices; each
tick's flush sends the whole queue and clears it, so nothing is lost or
duplicated. -/
theorem outbound_transmission_exactly_once (D p : Nat) (acts : List ClientAction) :
    ((runActions (mkClientEngine D p) acts).sentMessages ++
        (runActions (mkClientEngine D p) acts).outboundMessages =
      (runActions (mkClientEngine D p) acts).issuedMessages) ∧
    ((runActions (mkClientEngine D p) acts).issuedMessages.map
        InputMessage.messageIndex =
      List.range' (initMessageIndex p)
        (runActions (mkClientEngine D p) acts).issuedMessages.length) ∧
    (∀ x : ClientEngine,
      (handleOutboundInput x).sentMessages = x.sentMessages ++ x.outboundMessages ∧
      (handleOutboundInput x).outboundMessages = []) := by
  have hInv : OutboundInv (initMessageIndex p) (runActions (mkClientEngine D p) acts) :=
    OutboundInv_runActions (initMessageIndex p) acts (mkClientEngine D p)
      (OutboundInv_init D p)
  exact ⟨hInv.1, hInv.2.1, fun x => ⟨rfl, rfl⟩⟩

/-- C3: The inbound sync handler overwrites the local step count if and
only if the computed maximum exceeds it (never decreasing it), and over
any sequence of ticks and inbound payloads the local step count is
monotonically non-decreasing. -/
theorem stepCount_monotone :
    (∀ (e : ClientEngine) (s : SyncEvents),
      (handleInboundMessage e s).stepCount =
        if maxStepCount s > e.stepCount then maxStepCount s else e.stepCount) ∧
    (∀ (e : ClientEngine) (acts : List ClientAction),
      e.stepCount ≤ (runActions e acts).stepCount) :=
  ⟨fun e s => handleInboundMessage_stepCount e s,
   fun e acts => runActions_stepCount_le acts e⟩

/-- C4: In a single drift check with threshold `T ≥ 1`, starting from a
state where neither correction flag is raised, the skip-one-step and
double-step flags are never both raised (the two conditions are mutually
exclusive); and if no authoritative step has ever been received
(`serverStep` unset), the drift check changes nothing. -/
theorem drift_flags_mutually_exclusive (T : Nat) (e : ClientEngine) (_hT : 1 ≤ T)
    (h1 : e.skipOneStep = false) (h2 : e.doubleStep = false) :
    (¬((driftCheck T e).skipOneStep = true ∧ (driftCheck T e).doubleStep = true)) ∧
    (e.serverStep = none → driftCheck T e = e) := by
  refine ⟨?_, fun hnone => driftCheck_none T e hnone⟩
  rintro ⟨hs, hd⟩
  cases hss : e.serverStep with
  | none =>
    rw [driftCheck_none T e hss, h1] at hs
    exact Bool.false_ne_true hs
  | some s =>
    rw [driftCheck_some T s e hss] at hs hd
    split_ifs at hs hd with h0 hA hB
    · rw [h1] at hs; exact Bool.false_ne_true hs
    · have hd' : e.doubleStep = true := hd
      rw [h2] at hd'
      exact Bool.false_ne_true hd'
    · have hs' : e.skipOneStep = true := hs
      rw [h1] at hs'
      exact Bool.false_ne_true hs'
    · rw [h1] at hs; exact Bool.false_ne_true hs

/-- Witness for C4 at scenario 1 (local step 25, authoritative 5,
threshold 10). -/
theorem drift_flags_mutually_exclusive_witness :
    ((1 ≤ 10) ∧
      ({ mkClientEngine 0 0 with stepCount := 25, serverStep := some 5 } : ClientEngine).skipOneStep = false ∧
      ({ mkClientEngine 0 0 with stepCount := 25, serverStep := some 5 } : ClientEngine).doubleStep = false) ∧
    ((¬((driftCheck 10 { mkClientEngine 0 0 with stepCount := 25, serverStep := some 5 }).skipOneStep = true ∧
        (driftCheck 10 { mkClientEngine 0 0 with stepCount := 25, serverStep := some 5 }).doubleStep = true)) ∧
      (({ mkClientEngine 0 0 with stepCount := 25, serverStep := some 5 } : ClientEngine).serverStep = none →
        driftCheck 10 { mkClientEngine 0 0 with stepCount := 25, serverStep := some 5 } =
          { mkClientEngine 0 0 with stepCount := 25, serverStep := some 5 })) :=
  ⟨⟨by decide, rfl, rfl⟩,
   drift_flags_mutually_exclusive 10
     { mkClientEngine 0 0 with stepCount := 25, serverStep := some 5 }
     (by decide) rfl rfl⟩

/-- C6: The authoritative step computed for a payload is the maximum of
the `stepCount`s its events carry (base 0); events without one do not
affect it.  Scenario 4: events `[{stepCount:7}, {}, {stepCount:4}]` with
local step 5 give maximum 7 and the local step becomes 7.  Scenario 5:
events all lacking `stepCount` give 0 and local step 5 stays 5. -/
theorem maxStepCount_correct :
    (∀ s : SyncEvents, maxStepCount s = (s.filterMap id).foldl Nat.max 0) ∧
    maxStepCount [some 7, none, some 4] = 7 ∧
    (handleInboundMessage { mkClientEngine 0 0 with stepCount := 5 }
        [some 7, none, some 4]).stepCount = 7 ∧
    maxStepCount [none, none, none] = 0 ∧
    (handleInboundMessage { mkClientEngine 0 0 with stepCount := 5 }
        [none, none, none]).stepCount = 5 :=
  ⟨maxStepCount_eq_filterMap, by decide, by decide, by decide, by decide⟩

/-- C9: The per-tick drain of the pending-inbound queue processes
payloads most-recently-arrived-first: the drain handles exactly the
reverse of the pending list (and folds `handleInboundMessage` over it in
that order) until the queue is empty, while a `worldUpdate` arrival
appends to the end of the queue. -/
theorem inbound_drained_lifo :
    (∀ (e : ClientEngine) (pending : List SyncEvents),
      (drainInbound e pending).2 = pending.reverse ∧
      (drainInbound e pending).1 = pending.reverse.foldl handleInboundMessage e) ∧
    (∀ (e : ClientEngine) (w : SyncEvents),
      (receiveWorldUpdate e w).inboundMessages = e.inboundMessages ++ [w]) ∧
    (∀ (e : ClientEngine) (ins : List String), e.skipOneStep = false →
      (stepWithInputs e ins).inboundMessages = []) :=
  ⟨fun e pending => by rw [drainInbound_spec]; exact ⟨rfl, rfl⟩,
   fun e w => rfl,
   stepWithInputs_inboundMessages_of_not_skip⟩

/-- Witness for C9: two pending payloads are handled newest-first, and a
non-skipped tick empties the queue. -/
theorem inbound_drained_lifo_witness :
    (mkClientEngine 0 0).skipOneStep = false ∧
    (drainInbound (mkClientEngine 0 0) [[some 1], [some 2]]).2 =
      [[some 2], [some 1]] ∧
    (stepWithInputs (mkClientEngine 0 0) []).inboundMessages = [] := by
  refine ⟨rfl, ?_, inbound_drained_lifo.2.2 (mkClientEngine 0 0) [] rfl⟩
  have h := (inbound_drained_lifo.1 (mkClientEngine 0 0) [[some 1], [some 2]]).1
  simpa using h

/-- C10 (implicit): an inbound event whose `stepCount` is present but
equal to 0 is treated exactly like an event with no `stepCount`: the
computed maximum, and the whole inbound handling, are unchanged when one
is replaced by the other, because the source tests the field for
truthiness. -/
theorem zero_stepCount_ignored :
    (∀ l1 l2 : SyncEvents,
      maxStepCount (l1 ++ some 0 :: l2) = maxStepCount (l1 ++ none :: l2)) ∧
    (∀ (e : ClientEngine) (l1 l2 : SyncEvents),
      handleInboundMessage e (l1 ++ some 0 :: l2) =
        handleInboundMessage e (l1 ++ none :: l2)) := by
  have hmax : ∀ l1 l2 : SyncEvents,
      maxStepCount (l1 ++ some 0 :: l2) = maxStepCount (l1 ++ none :: l2) := by
    intro l1 l2
    unfold maxStepCount
    rw [List.foldl_append, List.foldl_append, List.foldl_cons, List.foldl_cons]
    simp
  exact ⟨hmax, fun e l1 l2 => by
    rw [handleInboundMessage_eq, handleInboundMessage_eq, hmax]⟩

/-- C7 counterexample: the per-player sequence-number namespaces are
**not** disjoint in general.  Player 1's 10001st message carries
sequence number 20000, which is also player 2's first sequence
number. -/
theorem messageIndex_collision :
    ((1 : Nat) ≠ 2) ∧ (20000 ∈ messageIndices 1 10001) ∧
      (20000 ∈ messageIndices 2 1) := by
  refine ⟨by decide, ?_, ?_⟩
  · rw [messageIndices_eq, List.mem_range'_1]
    omega
  · rw [messageIndices_eq, List.mem_range'_1]
    omega

/-- C7 amended: the sequence-number namespaces of two clients with
distinct player ids are disjoint **provided each client issues at most
10000 inputs** (the namespaces are blocks of 10000 consecutive indices
starting at playerId·10000, so they only collide once a client's issue
count reaches 10000). -/
theorem messageIndex_disjoint_bounded (p q n m : Nat) (hpq : p ≠ q)
    (hn : n ≤ 10000) (hm : m ≤ 10000) :
    ∀ i ∈ messageIndices p n, ∀ j ∈ messageIndices q m, i ≠ j := by
  intro i hi j hj
  rw [messageIndices_eq, List.mem_range'_1] at hi hj
  omega

/-- Witness for the amended C7: players 1 and 2 issuing one input each
get the distinct sequence numbers 10000 and 20000. -/
theorem messageIndex_disjoint_bounded_witness :
    ((1 : Nat) ≠ 2 ∧ (1 : Nat) ≤ 10000 ∧ (1 : Nat) ≤ 10000) ∧
    (10000 ∈ messageIndices 1 1) ∧ (20000 ∈ messageIndices 2 1) ∧
    ((10000 : Nat) ≠ 20000) := by
  have h10 : 10000 ∈ messageIndices 1 1 := by decide
  have h20 : 20000 ∈ messageIndices 2 1 := by decide
  exact ⟨⟨by decide, by decide, by decide⟩, h10, h20,
    messageIndex_disjoint_bounded 1 2 1 1 (by decide) (by decide) (by decide)
      10000 h10 20000 h20⟩

/-- C8: configuring sync mode `"reflect"` activates exactly the same
strategy as `"interpolate"` plus the reflect visibility modifier set to
true (not a separate code path), and for every recognized mode exactly
one of the extrapolate/interpolate/frame-sync selectors is activated. -/
theorem reflect_is_interpolate_with_flag (opts : SyncOptions)
    (h : opts.sync = "extrapolate" ∨ opts.sync = "interpolate" ∨
         opts.sync = "frameSync" ∨ opts.sync = "reflect") :
    activatedSelectorCount (configureSynchronization opts).2 = 1 ∧
    (opts.sync = "reflect" →
      (configureSynchronization opts).2 =
        (configureSynchronization { sync := "interpolate", reflect := true }).2 ∧
      (configureSynchronization opts).1 = { sync := "interpolate", reflect := true }) := by
  rcases h with h | h | h | h <;>
    simp [configureSynchronization, activatedSelectorCount, h]

/-- Witness for C8 at scenario 6: `sync = "reflect"`. -/
theorem reflect_is_interpolate_with_flag_witness :
    (({ sync := "reflect", reflect := false } : SyncOptions).sync = "extrapolate" ∨
      ({ sync := "reflect", reflect := false } : SyncOptions).sync = "interpolate" ∨
      ({ sync := "reflect", reflect := false } : SyncOptions).sync = "frameSync" ∨
      ({ sync := "reflect", reflect := false } : SyncOptions).sync = "reflect") ∧
    (activatedSelectorCount
        (configureSynchronization { sync := "reflect", reflect := false }).2 = 1 ∧
      (({ sync := "reflect", reflect := false } : SyncOptions).sync = "reflect" →
        (configureSynchronization { sync := "reflect", reflect := false }).2 =
          (configureSynchronization { sync := "interpolate", reflect := true }).2 ∧
        (configureSynchronization { sync := "reflect", reflect := false }).1 =
          { sync := "interpolate", reflect := true })) :=
  ⟨Or.inr (Or.inr (Or.inr rfl)),
   reflect_is_interpolate_with_flag { sync := "reflect", reflect := false }
     (Or.inr (Or.inr (Or.inr rfl)))⟩

/-- C5: when the local step count exceeds the authoritative step count
plus the drift threshold, the triggering tick raises the skip flag (and
still advances the simulation by its one step); the **next** call to
`step` performs no simulation advance and changes nothing except
clearing the flag; and the tick after that proceeds normally, advancing
the step count again — so exactly one tick is skipped. -/
theorem skip_one_step_exactly_once (e : ClientEngine) (s : Nat)
    (ins1 ins2 ins3 : List String)
    (h1 : e.skipOneStep = false) (h2 : e.inboundMessages = [])
    (h3 : e.serverStep = some s) (h4 : s ≠ 0)
    (h5 : e.stepCount > s + STEP_DRIFT_THRESHOLD) :
    (stepWithInputs e ins1).skipOneStep = true ∧
    (stepWithInputs e ins1).stepCount = e.stepCount + 1 ∧
    stepWithInputs (stepWithInputs e ins1) ins2 =
      { stepWithInputs e ins1 with skipOneStep := false } ∧
    (stepWithInputs (stepWithInputs (stepWithInputs e ins1) ins2) ins3).stepCount =
      (stepWithInputs e ins1).stepCount + 1 := by
  have hskip : (stepWithInputs e ins1).skipOneStep = true :=
    stepWithInputs_skipOneStep_of_drift e s ins1 h1 h2 h3 h4 h5
  have hstep : (stepWithInputs e ins1).stepCount = e.stepCount + 1 :=
    stepWithInputs_stepCount_of_empty_inbound e ins1 h1 h2
  have hskipped : stepWithInputs (stepWithInputs e ins1) ins2 =
      { stepWithInputs e ins1 with skipOneStep := false } :=
    stepWithInputs_skip (stepWithInputs e ins1) ins2 hskip
  refine ⟨hskip, hstep, hskipped, ?_⟩
  rw [hskipped]
  rw [stepWithInputs_stepCount_of_empty_inbound _ ins3 rfl
    (by
      show (stepWithInputs e ins1).inboundMessages = []
      exact stepWithInputs_inboundMessages_of_not_skip e ins1 h1)]

/-- Witness for C5 at scenario 1 (local step 25, authoritative 5,
threshold 10). -/
theorem skip_one_step_exactly_once_witness :
    (({ mkClientEngine 0 9 with stepCount := 25, serverStep := some 5 } : ClientEngine).skipOneStep = false ∧
      ({ mkClientEngine 0 9 with stepCount := 25, serverStep := some 5 } : ClientEngine).inboundMessages = [] ∧
      ({ mkClientEngine 0 9 with stepCount := 25, serverStep := some 5 } : ClientEngine).serverStep = some 5 ∧
      (5 : Nat) ≠ 0 ∧
      ({ mkClientEngine 0 9 with stepCount := 25, serverStep := some 5 } : ClientEngine).stepCount >
        5 + STEP_DRIFT_THRESHOLD) ∧
    ((stepWithInputs { mkClientEngine 0 9 with stepCount := 25, serverStep := some 5 } []).skipOneStep = true ∧
      (stepWithInputs { mkClientEngine 0 9 with stepCount := 25, serverStep := some 5 } []).stepCount =
        ({ mkClientEngine 0 9 with stepCount := 25, serverStep := some 5 } : ClientEngine).stepCount + 1 ∧
      stepWithInputs (stepWithInputs { mkClientEngine 0 9 with stepCount := 25, serverStep := some 5 } []) [] =
        { stepWithInputs { mkClientEngine 0 9 with stepCount := 25, serverStep := some 5 } [] with
            skipOneStep := false } ∧
      (stepWithInputs (stepWithInputs (stepWithInputs { mkClientEngine 0 9 with stepCount := 25, serverStep := some 5 } []) []) []).stepCount =
        (stepWithInputs { mkClientEngine 0 9 with stepCount := 25, serverStep := some 5 } []).stepCount + 1) :=
  ⟨⟨rfl, rfl, rfl, by decide, by decide⟩,
   skip_one_step_exactly_once
     { mkClientEngine 0 9 with stepCount := 25, serverStep := some 5 }
     5 [] [] [] rfl rfl rfl (by decide) (by decide)⟩

/-- C1 counterexample: with `delayInputCount = 3` the constructor builds
**3** batches, not 3 + 1, and an input issued at tick 0 has already been
applied once ticks 0, 1 and 2 have run — i.e. it is applied at tick 2,
strictly before tick 3, contradicting "applied at exactly tick T+D and
not before". -/
theorem delayedInput_claim_counterexample :
    mkDelayedInputs 3 = some [[], [], []] ∧
    (runTicks (mkClientEngine 3 7) [["I1"], [], []]).appliedInputs =
      [InputMessage.mk "move" 70000 0 "I1" none] := by
  constructor
  · decide
  · decide

/-- C1 amended: with `delayInputCount = D ≥ 1` the buffer holds `D`
batches; an input issued at tick `T` (at that tick's `client.preStep`
hook) is applied to the local simulation at exactly tick `T + D - 1` and
not before — the schedule below has `T + D` ticks, the input is applied
during the last one, and after any proper prefix of the schedule nothing
has been applied; the input still appears in tick `T`'s outbound
flush. -/
theorem delayedInput_applied_at_T_plus_D_minus_one (D T p : Nat) (inp : String)
    (hD : 1 ≤ D) :
    ((mkDelayedInputs D).getD []).length = D ∧
    (runTicks (mkClientEngine D p)
        (List.replicate T [] ++ [[inp]] ++ List.replicate (D - 1) [])).appliedInputs =
      [InputMessage.mk "move" (p * 10000) T inp none] ∧
    (∀ k, k < T + D →
      (runTicks (mkClientEngine D p)
          ((List.replicate T [] ++ [[inp]] ++
            List.replicate (D - 1) []).take k)).appliedInputs = []) ∧
    (runTicks (mkClientEngine D p) (List.replicate T [] ++ [[inp]])).sentMessages =
      [InputMessage.mk "move" (p * 10000) T inp none] := by
  obtain ⟨d, rfl⟩ : ∃ d, D = d + 1 := ⟨D - 1, by omega⟩
  have hA : runTicks (mkClientEngine (d + 1) p) (List.replicate T []) =
      { stepCount := T, serverStep := none, skipOneStep := false, doubleStep := false,
        inboundMessages := [], outboundMessages := [],
        delayedInputs := some (List.replicate (d + 1) []), messageIndex := p * 10000,
        passive := false, appliedInputs := [], sentMessages := [],
        issuedMessages := [] } := by
    rw [mkClientEngine_eq (d + 1) p (by omega)]
    rw [runTicks_all_empty T 0 (p * 10000) false d [] [] []]
    rw [ClientEngine.mk.injEq]
    exact ⟨by omega, rfl, rfl, rfl, rfl, rfl, rfl, rfl, rfl, rfl, rfl, rfl⟩
  have hB : stepWithInputs (runTicks (mkClientEngine (d + 1) p) (List.replicate T []))
        [inp] =
      { stepCount := T + 1, serverStep := none, skipOneStep := false,
        doubleStep := false, inboundMessages := [], outboundMessages := [],
        delayedInputs := some ((List.replicate d [] ++
          [[InputMessage.mk "move" (p * 10000) T inp none]]).tail ++ [[]]),
        messageIndex := p * 10000 + 1, passive := false,
        appliedInputs := [] ++ (List.replicate d [] ++
          [[InputMessage.mk "move" (p * 10000) T inp none]]).headD [],
        sentMessages := [] ++ [InputMessage.mk "move" (p * 10000) T inp none],
        issuedMessages := [] ++ [InputMessage.mk "move" (p * 10000) T inp none] } := by
    rw [hA, stepWithInputs_input_tick]
  refine ⟨by simp [mkDelayedInputs], ?_, ?_, ?_⟩
  · -- applied at tick T + D - 1: after the full T + D ticks exactly the
    -- issued message has been applied
    rw [Nat.add_sub_cancel, runTicks_append, runTicks_append, runTicks_singleton, hB]
    cases d with
    | zero =>
      simp only [List.replicate_zero, runTicks_nil]
      simp
    | succ d' =>
      have hlen : d' + 1 ≤ ((List.replicate (d' + 1) ([] : List InputMessage) ++
          [[InputMessage.mk "move" (p * 10000) T inp none]]).tail ++ [[]]).length := by
        simp only [List.length_append, List.length_tail, List.length_replicate,
          List.length_cons, List.length_nil]
        omega
      rw [runTicks_empty_sched (d' + 1) (T + 1) (p * 10000 + 1) false _ _ _ _ hlen]
      rw [show List.replicate (d' + 1) ([] : List InputMessage) =
            [] :: List.replicate d' [] from List.replicate_succ ..]
      rw [List.cons_append, List.headD_cons, List.tail_cons]
      rw [List.take_left' (show (List.replicate d' ([] : List InputMessage) ++
        [[InputMessage.mk "move" (p * 10000) T inp none]]).length = d' + 1 by simp)]
      rw [List.flatten_append, flatten_replicate_nil]
      simp
  · -- not before: after any k < T + D ticks nothing has been applied
    intro k hk
    rw [Nat.add_sub_cancel]
    cases d with
    | zero =>
      rw [List.replicate_zero, List.append_nil]
      rw [List.take_append_of_le_length
        (by simp only [List.length_replicate]; omega)]
      rw [List.take_replicate, Nat.min_eq_left (by omega)]
      rw [mkClientEngine_eq (0 + 1) p (by omega)]
      rw [runTicks_all_empty k 0 (p * 10000) false 0 [] [] []]
    | succ d' =>
      have hsched : List.replicate T [] ++ [[inp]] ++
            List.replicate (d' + 1) ([] : List String) =
          (List.replicate T [] ++ [inp] :: List.replicate d' []) ++ [[]] := by
        rw [show List.replicate (d' + 1) ([] : List String) =
            List.replicate d' [] ++ [[]] from List.replicate_succ' ..]
        simp [List.cons_append, List.append_assoc, List.singleton_append]
      rw [hsched]
      rw [List.take_append_of_le_length
        (by
          simp only [List.length_append, List.length_replicate, List.length_cons]
          omega)]
      have hpre : (runTicks (mkClientEngine (d' + 1 + 1) p)
          (List.replicate T [] ++ [inp] :: List.replicate d' [])).appliedInputs = [] := by
        rw [runTicks_append, runTicks_cons, hB]
        have hlen2 : d' ≤ ((List.replicate (d' + 1) ([] : List InputMessage) ++
            [[InputMessage.mk "move" (p * 10000) T inp none]]).tail ++ [[]]).length := by
          simp only [List.length_append, List.length_tail, List.length_replicate,
            List.length_cons, List.length_nil]
          omega
        rw [runTicks_empty_sched d' (T + 1) (p * 10000 + 1) false _ _ _ _ hlen2]
        rw [show List.replicate (d' + 1) ([] : List InputMessage) =
              [] :: List.replicate d' [] from List.replicate_succ ..]
        rw [List.cons_append, List.headD_cons, List.tail_cons]
        rw [List.take_append_of_le_length
          (by simp only [List.length_append, List.length_replicate, List.length_cons,
                List.length_nil]; omega)]
        rw [List.take_append_of_le_length (by simp only [List.length_replicate]; omega)]
        rw [List.take_replicate, Nat.min_self, flatten_replicate_nil]
        simp
      obtain ⟨t, ht⟩ := runTicks_appliedInputs_extends
        ((List.replicate T [] ++ [inp] :: List.replicate d' []).drop k)
        (runTicks (mkClientEngine (d' + 1 + 1) p)
          ((List.replicate T [] ++ [inp] :: List.replicate d' []).take k))
      have hsplit : runTicks (mkClientEngine (d' + 1 + 1) p)
            (List.replicate T [] ++ [inp] :: List.replicate d' []) =
          runTicks (runTicks (mkClientEngine (d' + 1 + 1) p)
            ((List.replicate T [] ++ [inp] :: List.replicate d' []).take k))
            ((List.replicate T [] ++ [inp] :: List.replicate d' []).drop k) := by
        rw [← runTicks_append, List.take_append_drop]
      rw [hsplit, ht] at hpre
      exact (List.append_eq_nil.mp hpre).1
  · -- the input appears in tick T's outbound flush
    rw [runTicks_append, runTicks_singleton, hB]
    simp

/-- Witness for the amended C1 at scenario 3's parameters
(`delayInputCount = 3`, input issued at tick 0). -/
theorem delayedInput_applied_witness :
    (1 ≤ 3) ∧
    (((mkDelayedInputs 3).getD []).length = 3 ∧
      (runTicks (mkClientEngine 3 7)
          (List.replicate 0 [] ++ [["I1"]] ++ List.replicate (3 - 1) [])).appliedInputs =
        [InputMessage.mk "move" (7 * 10000) 0 "I1" none] ∧
      (∀ k, k < 0 + 3 →
        (runTicks (mkClientEngine 3 7)
            ((List.replicate 0 [] ++ [["I1"]] ++
              List.replicate (3 - 1) []).take k)).appliedInputs = []) ∧
      (runTicks (mkClientEngine 3 7) (List.replicate 0 [] ++ [["I1"]])).sentMessages =
        [InputMessage.mk "move" (7 * 10000) 0 "I1" none]) :=
  ⟨by decide, delayedInput_applied_at_T_plus_D_minus_one 3 0 7 "I1" (by decide)⟩

end Lance
